import Mathlib

/-!
Verification of the semantic-complexity engine against its specification.

Shallow embedding of the Python sources:
  * `src/py/semantic_complexity/energy/convergence.py`   (ε-convergence, ADR gate)
  * `src/py/semantic_complexity/measurement/deviation.py` (canonical deviation)
  * `src/py/semantic_complexity/measurement/vector.py`    (5D vector measurement)
  * `src/py/semantic_complexity/measurement/hodge.py`     (Hodge bucket classification)
  * `src/py/semantic_complexity/core/canonical.py`        (weighted Hodge decomposition)
  * `src/py/semantic_complexity/core/convergence.py`      (oscillation detection)
  * `src/py/semantic_complexity/graph/metrics.py`         (Metrics record)
  * `src/py/semantic_complexity/graph/store.py`           (metrics table upsert/read)
  * `src/py/semantic_complexity/gate/adr/parser.py`       (grace-period parsing)

Python floats are modelled as exact rationals (ℚ); all arithmetic in the
modelled code paths is exact on the inputs considered, so no rounding
behaviour of IEEE floats is relevant to the statements proved here.
Human-readable message strings attached to results are not modelled; their
content is a pure function of the other result fields.
-/

namespace SemanticComplexity

namespace Energy

/-! ### `energy/convergence.py` -/

/-- Constant `DEFAULT_EPSILON = 0.01`. -/
def DEFAULT_EPSILON : ℚ := 1 / 100

/-- Constant `MIN_CONVERGENCE_ITERATIONS = 3`. -/
def MIN_CONVERGENCE_ITERATIONS : ℕ := 3

/-- Dataclass `ConvergenceResult` (the `message : str` field is omitted; it is
a formatted rendering of the remaining fields). -/
structure ConvergenceResult where
  converged : Bool
  delta_phi : ℚ
  epsilon : ℚ
  iterations : ℕ
deriving DecidableEq, Repr

/-- Embedding of `check_convergence(delta_phi, epsilon, previous_iterations)`:
`is_converging = abs(delta_phi) < epsilon`;
`iterations = previous_iterations + 1 if is_converging else 0`;
`converged = iterations >= MIN_CONVERGENCE_ITERATIONS`. -/
def check_convergence (delta_phi : ℚ) (epsilon : ℚ) (previous_iterations : ℕ) :
    ConvergenceResult :=
  let is_converging : Bool := decide (|delta_phi| < epsilon)
  let iterations : ℕ := if is_converging then previous_iterations + 1 else 0
  let converged : Bool := decide (MIN_CONVERGENCE_ITERATIONS ≤ iterations)
  { converged := converged
    delta_phi := delta_phi
    epsilon := epsilon
    iterations := iterations }

/-- Embedding of `check_convergence_history(delta_phi_history, epsilon)`: empty history is
not converged; otherwise the consecutive-convergence count is obtained by
scanning the history from the most recent sample backwards and stopping at
the first sample with `abs(delta) >= epsilon` (the `for … break` loop over
`reversed(delta_phi_history)`), and
`converged = iterations >= MIN_CONVERGENCE_ITERATIONS` with
`delta_phi = delta_phi_history[-1]`. -/
def check_convergence_history (delta_phi_history : List ℚ) (epsilon : ℚ) :
    ConvergenceResult :=
  if delta_phi_history.isEmpty then
    { converged := false, delta_phi := 0, epsilon := epsilon, iterations := 0 }
  else
    let iterations :=
      (delta_phi_history.reverse.takeWhile (fun d => decide (|d| < epsilon))).length
    let latest_delta := delta_phi_history.getLastD 0
    { converged := decide (MIN_CONVERGENCE_ITERATIONS ≤ iterations)
      delta_phi := latest_delta
      epsilon := epsilon
      iterations := iterations }

/-- Feeding `check_convergence` each sample of a history in order, threading
the `iterations` counter of each result into the next call as
`previous_iterations` (starting from the all-zero initial state). -/
def run_check_convergence (hist : List ℚ) (epsilon : ℚ) : ConvergenceResult :=
  hist.foldl (fun r d => check_convergence d epsilon r.iterations)
    { converged := false, delta_phi := 0, epsilon := epsilon, iterations := 0 }

/-- The distinct return reasons of `can_issue_adr`, one constructor per
literal string in the source:
`notConverged ↦ "Not converged: …"`,
`fluxUnstable ↦ "Boundary flux is unstable - security boundaries may be weakening"`,
`evidenceIncomplete ↦ "Evidence is incomplete - cannot verify essential complexity"`,
`gateAlreadyPassed ↦ "Gate passed - no ADR needed, code meets standards"`,
`approved ↦ "ADR can be issued: Essential Complexity confirmed"`. -/
inductive AdrReason where
  | notConverged
  | fluxUnstable
  | evidenceIncomplete
  | gateAlreadyPassed
  | approved
deriving DecidableEq, Repr

/-- Embedding of `can_issue_adr(convergence, flux_stable, evidence_complete, gate_passed)`:
four guard clauses in order, then approval. -/
def can_issue_adr (convergence : ConvergenceResult)
    (flux_stable evidence_complete gate_passed : Bool) : Bool × AdrReason :=
  if !convergence.converged then (false, .notConverged)
  else if !flux_stable then (false, .fluxUnstable)
  else if !evidence_complete then (false, .evidenceIncomplete)
  else if gate_passed then (false, .gateAlreadyPassed)
  else (true, .approved)

/-! ### Helper lemmas for the convergence tracker -/

theorem check_convergence_iterations (d ε : ℚ) (k : ℕ) :
    (check_convergence d ε k).iterations = if |d| < ε then k + 1 else 0 := by
  simp only [check_convergence]
  split <;> rename_i h
  · rw [if_pos (by simpa using h)]
  · rw [if_neg (by simpa using h)]

theorem check_convergence_converged (d ε : ℚ) (k : ℕ) :
    (check_convergence d ε k).converged
      = decide (MIN_CONVERGENCE_ITERATIONS ≤ (check_convergence d ε k).iterations) := by
  simp [check_convergence]

theorem run_check_convergence_append (hist : List ℚ) (d ε : ℚ) :
    run_check_convergence (hist ++ [d]) ε
      = check_convergence d ε (run_check_convergence hist ε).iterations := by
  simp [run_check_convergence]

/-- The threaded counter equals the length of the maximal all-converging
suffix of the history. -/
theorem run_check_convergence_iterations (hist : List ℚ) (ε : ℚ) :
    (run_check_convergence hist ε).iterations
      = (hist.reverse.takeWhile (fun d => decide (|d| < ε))).length := by
  induction hist using List.reverseRecOn with
  | nil => simp [run_check_convergence]
  | append_singleton hist d ih =>
    rw [run_check_convergence_append, check_convergence_iterations]
    simp only [List.reverse_append, List.reverse_cons, List.reverse_nil, List.nil_append,
      List.cons_append, List.takeWhile]
    by_cases h : |d| < ε
    · simp [h, ih]
    · simp [h]

theorem run_check_convergence_converged (hist : List ℚ) (ε : ℚ) :
    (run_check_convergence hist ε).converged
      = decide (MIN_CONVERGENCE_ITERATIONS ≤ (run_check_convergence hist ε).iterations) := by
  induction hist using List.reverseRecOn with
  | nil => simp [run_check_convergence, MIN_CONVERGENCE_ITERATIONS]
  | append_singleton hist d ih =>
    rw [run_check_convergence_append, check_convergence_converged]

/-- A `takeWhile` prefix keeps at least `n` elements iff the list has at
least `n` elements and the first `n` all satisfy the predicate. -/
theorem takeWhile_length_ge {α : Type} (p : α → Bool) (l : List α) (n : ℕ) :
    n ≤ (l.takeWhile p).length ↔ n ≤ l.length ∧ ∀ x ∈ l.take n, p x = true := by
  induction l generalizing n with
  | nil => cases n <;> simp
  | cons a l ih =>
    cases n with
    | zero => simp
    | succ n =>
      by_cases h : p a = true
      · simp only [List.takeWhile, h, List.take, List.length_cons, Nat.succ_le_succ_iff, ih,
          List.mem_cons]
        constructor
        · rintro ⟨h1, h2⟩
          exact ⟨h1, by rintro x (rfl | hx); exact h; exact h2 x hx⟩
        · rintro ⟨h1, h2⟩
          exact ⟨h1, fun x hx => h2 x (Or.inr hx)⟩
      · simp only [Bool.not_eq_true] at h
        simp only [List.takeWhile, h, List.length_nil, List.take, List.length_cons]
        constructor
        · intro hc; omega
        · rintro ⟨-, h2⟩
          have ha := h2 a (List.mem_cons_self a _)
          rw [h] at ha
          exact absurd ha (by simp)

theorem reverse_takeWhile_three (l : List ℚ) :
    3 ≤ (l.reverse.takeWhile (fun d => decide (|d| < DEFAULT_EPSILON))).length
      ↔ 3 ≤ l.length ∧ ∀ d ∈ l.reverse.take 3, |d| < DEFAULT_EPSILON := by
  rw [takeWhile_length_ge]
  simp

theorem check_convergence_history_converged_iff (hist : List ℚ) :
    (check_convergence_history hist DEFAULT_EPSILON).converged = true
      ↔ 3 ≤ hist.length ∧ ∀ d ∈ hist.reverse.take 3, |d| < DEFAULT_EPSILON := by
  match hist with
  | [] => simp [check_convergence_history]
  | a :: t =>
    simp only [check_convergence_history, List.isEmpty_cons, if_neg Bool.false_ne_true,
      decide_eq_true_eq, MIN_CONVERGENCE_ITERATIONS]
    exact reverse_takeWhile_three (a :: t)

/-- Claim C1: with the defaults ε = 0.01 and minimum consecutive
iterations = 3, both `check_convergence` (fed the previous counter over the
history) and `check_convergence_history` (fed the full history) report
`converged` exactly when the most recent 3 or more consecutive samples each
satisfy |ΔΦ| < ε; a sample with |ΔΦ| ≥ ε resets the consecutive counter to 0;
and the history [0.1, 0.005, 0.003, 0.002] is converged after the fourth
sample. -/
theorem convergence_tracker_c1 (hist : List ℚ) :
    ((check_convergence_history hist DEFAULT_EPSILON).converged = true
      ↔ 3 ≤ hist.length ∧ ∀ d ∈ hist.reverse.take 3, |d| < DEFAULT_EPSILON)
    ∧ ((run_check_convergence hist DEFAULT_EPSILON).converged = true
      ↔ 3 ≤ hist.length ∧ ∀ d ∈ hist.reverse.take 3, |d| < DEFAULT_EPSILON)
    ∧ (∀ d : ℚ, ∀ k : ℕ, DEFAULT_EPSILON ≤ |d| →
        (check_convergence d DEFAULT_EPSILON k).iterations = 0)
    ∧ (check_convergence_history [1/10, 5/1000, 3/1000, 2/1000]
        DEFAULT_EPSILON).converged = true := by
  refine ⟨check_convergence_history_converged_iff hist, ?_, ?_, ?_⟩
  · rw [run_check_convergence_converged, run_check_convergence_iterations]
    simp only [decide_eq_true_eq, MIN_CONVERGENCE_ITERATIONS]
    exact reverse_takeWhile_three hist
  · intro d k h
    rw [check_convergence_iterations, if_neg (not_lt.mpr h)]
  · rw [check_convergence_history_converged_iff]
    refine ⟨by norm_num, ?_⟩
    have htake : ([1/10, 5/1000, 3/1000, 2/1000] : List ℚ).reverse.take 3
        = [2/1000, 3/1000, 5/1000] := rfl
    rw [htake]
    intro d hd
    simp only [List.mem_cons, List.not_mem_nil, or_false] at hd
    rcases hd with rfl | rfl | rfl <;> rw [abs_lt] <;>
      exact ⟨by norm_num [DEFAULT_EPSILON], by norm_num [DEFAULT_EPSILON]⟩

/-- Closed witness for C1: a concrete out-of-tolerance sample resets the
counter, via the third conjunct of `convergence_tracker_c1`. -/
theorem convergence_tracker_c1_witness :
    (check_convergence 1 DEFAULT_EPSILON 7).iterations = 0 :=
  (convergence_tracker_c1 []).2.2.1 1 7 (by norm_num [DEFAULT_EPSILON])

/-- Claim C2: `can_issue_adr` approves exactly when the convergence result is
converged, the flux is stable, the evidence is complete and the quality gate
still fails; and whenever a single condition fails the returned denial reason
is the one naming that condition. -/
theorem adr_gate_c2 (c : ConvergenceResult)
    (flux_stable evidence_complete gate_passed : Bool) :
    ((can_issue_adr c flux_stable evidence_complete gate_passed).1 = true
      ↔ (c.converged = true ∧ flux_stable = true ∧ evidence_complete = true
          ∧ gate_passed = false))
    ∧ (c.converged = false →
        (can_issue_adr c flux_stable evidence_complete gate_passed).2
          = AdrReason.notConverged)
    ∧ (c.converged = true → flux_stable = false →
        (can_issue_adr c flux_stable evidence_complete gate_passed).2
          = AdrReason.fluxUnstable)
    ∧ (c.converged = true → flux_stable = true → evidence_complete = false →
        (can_issue_adr c flux_stable evidence_complete gate_passed).2
          = AdrReason.evidenceIncomplete)
    ∧ (c.converged = true → flux_stable = true → evidence_complete = true →
        gate_passed = true →
        (can_issue_adr c flux_stable evidence_complete gate_passed).2
          = AdrReason.gateAlreadyPassed) := by
  obtain ⟨cv, dp, ep, it⟩ := c
  cases cv <;> cases flux_stable <;> cases evidence_complete <;> cases gate_passed <;>
    simp [can_issue_adr]

/-- Closed witness for C2: a non-converged result yields the
`notConverged` denial, via `adr_gate_c2`. -/
theorem adr_gate_c2_witness :
    (can_issue_adr ⟨false, 0, 1/100, 0⟩ true true false).2 = AdrReason.notConverged :=
  (adr_gate_c2 ⟨false, 0, 1/100, 0⟩ true true false).2.1 rfl

end Energy

namespace Measurement

/-! ### `measurement/vector.py`: the 5D complexity vector -/

/-- Dataclass `ComplexityVector` with components C (control), N (nesting),
S (state), A (async), L (coupling). -/
structure ComplexityVector where
  C : ℚ
  N : ℚ
  S : ℚ
  A : ℚ
  L : ℚ
deriving DecidableEq, Repr

/-- Embedding of `ComplexityVector.zero()`. -/
def ComplexityVector.zero : ComplexityVector := ⟨0, 0, 0, 0, 0⟩

/-- Property `raw_sum`: the sum of the five components. -/
def ComplexityVector.raw_sum (x : ComplexityVector) : ℚ :=
  x.C + x.N + x.S + x.A + x.L

/-- Embedding of `to_array()`: the components as a length-5 array. -/
def ComplexityVector.to_array (x : ComplexityVector) : List ℚ :=
  [x.C, x.N, x.S, x.A, x.L]

/-! ### `measurement/deviation.py`: canonical deviation -/

/-- The dict `CANONICAL_5D_PROFILES`, in declaration order. -/
def CANONICAL_5D_PROFILES : List (String × ComplexityVector) :=
  [("api/external", ⟨3, 2, 1, 1, 2⟩),
   ("lib/domain", ⟨5, 3, 2, 0, 3⟩),
   ("app", ⟨8, 4, 3, 2, 5⟩),
   ("infra", ⟨4, 2, 2, 3, 4⟩),
   ("deploy", ⟨2, 1, 1, 1, 2⟩)]

/-- Embedding of `get_canonical_5d_profile(architecture_role)`: dictionary lookup with the
`"app"` profile as the fallback for unknown roles. -/
def get_canonical_5d_profile (architecture_role : String) : ComplexityVector :=
  (CANONICAL_5D_PROFILES.lookup architecture_role).getD
    ((CANONICAL_5D_PROFILES.lookup "app").getD ComplexityVector.zero)

/-- One component of the normalized deviation in `calculate_deviation`:
`x_i / μ_i − 1`, except that when `μ_i = 0` the term is `0` if `x_i = 0`
and the raw `x_i` otherwise. -/
def deviation_term (x_i mu_i : ℚ) : ℚ :=
  if mu_i = 0 then (if x_i = 0 then 0 else x_i) else x_i / mu_i - 1

/-- The squared L2 norm of the normalized-deviation vector computed by the
component loop of `calculate_deviation` (the loop over the five components,
unrolled). -/
def deviation_sq (x : ComplexityVector) (architecture_role : String) : ℚ :=
  let mu := get_canonical_5d_profile architecture_role
  (deviation_term x.C mu.C) ^ 2 + (deviation_term x.N mu.N) ^ 2
    + (deviation_term x.S mu.S) ^ 2 + (deviation_term x.A mu.A) ^ 2
    + (deviation_term x.L mu.L) ^ 2

/-- Embedding of `calculate_deviation(x, architecture_role)`: the L2 norm
`‖x/μ − 1‖₂` (with the `μ_i = 0` special case) of the normalized deviation. -/
noncomputable def calculate_deviation (x : ComplexityVector)
    (architecture_role : String) : ℝ :=
  Real.sqrt ((deviation_sq x architecture_role : ℚ) : ℝ)

theorem deviation_term_eq_zero_iff (a b : ℚ) : deviation_term a b = 0 ↔ a = b := by
  unfold deviation_term
  by_cases hb : b = 0
  · subst hb
    by_cases ha : a = 0 <;> simp [ha]
  · rw [if_neg hb, sub_eq_zero, div_eq_one_iff_eq hb]

theorem deviation_sq_nonneg (x : ComplexityVector) (role : String) :
    0 ≤ deviation_sq x role := by
  unfold deviation_sq
  positivity

theorem deviation_sq_eq_zero_iff (x : ComplexityVector) (role : String) :
    deviation_sq x role = 0 ↔ x = get_canonical_5d_profile role := by
  unfold deviation_sq
  have h5 : ∀ a b c d e : ℚ,
      (a ^ 2 + b ^ 2 + c ^ 2 + d ^ 2 + e ^ 2 = 0
        ↔ a = 0 ∧ b = 0 ∧ c = 0 ∧ d = 0 ∧ e = 0) := by
    intro a b c d e
    constructor
    · intro h
      refine ⟨by nlinarith [sq_nonneg a, sq_nonneg b, sq_nonneg c, sq_nonneg d, sq_nonneg e],
        by nlinarith [sq_nonneg a, sq_nonneg b, sq_nonneg c, sq_nonneg d, sq_nonneg e],
        by nlinarith [sq_nonneg a, sq_nonneg b, sq_nonneg c, sq_nonneg d, sq_nonneg e],
        by nlinarith [sq_nonneg a, sq_nonneg b, sq_nonneg c, sq_nonneg d, sq_nonneg e],
        by nlinarith [sq_nonneg a, sq_nonneg b, sq_nonneg c, sq_nonneg d, sq_nonneg e]⟩
    · rintro ⟨rfl, rfl, rfl, rfl, rfl⟩; ring
  rw [h5]
  simp only [deviation_term_eq_zero_iff]
  obtain ⟨c, n, s, a, l⟩ := x
  obtain ⟨c', n', s', a', l'⟩ := get_canonical_5d_profile role
  constructor
  · rintro ⟨rfl, rfl, rfl, rfl, rfl⟩; rfl
  · intro h; injection h with h1 h2 h3 h4 h5; exact ⟨h1, h2, h3, h4, h5⟩

theorem calculate_deviation_eq_zero_iff (x : ComplexityVector) (role : String) :
    calculate_deviation x role = 0 ↔ x = get_canonical_5d_profile role := by
  unfold calculate_deviation
  rw [Real.sqrt_eq_zero (by exact_mod_cast deviation_sq_nonneg x role)]
  rw [show ((deviation_sq x role : ℚ) : ℝ) = 0 ↔ deviation_sq x role = 0 by
    exact_mod_cast Iff.rfl]
  exact deviation_sq_eq_zero_iff x role

/-- Claim C3: the canonical deviation vanishes exactly when the measured
vector equals the category centroid (division by zero never occurs thanks to
the per-component `μ_i = 0` rule, which is part of the definition of
`deviation_term`), and the vector (5,3,2,0,3) has deviation 0 against the
`lib/domain` centroid. -/
theorem deviation_c3 (x : ComplexityVector) (role : String) :
    (calculate_deviation x role = 0 ↔ x = get_canonical_5d_profile role)
    ∧ calculate_deviation ⟨5, 3, 2, 0, 3⟩ "lib/domain" = 0 :=
  ⟨calculate_deviation_eq_zero_iff x role,
   (calculate_deviation_eq_zero_iff ⟨5, 3, 2, 0, 3⟩ "lib/domain").mpr rfl⟩

/-! ### `measurement/hodge.py`: Hodge bucket classification -/

/-- Enum `HodgeBucket`, in declaration order. -/
inductive HodgeBucket where
  | algorithmic
  | balanced
  | architectural
deriving DecidableEq, Repr

/-- Embedding of `classify_hodge(x)`: the bucket scores are `algorithmic = C + N`,
`balanced = A`, `architectural = S + Λ` (from `get_hodge_scores`, inlined);
the result is the bucket whose score equals `max` of the three, tested in
declaration order. -/
def classify_hodge (x : ComplexityVector) : HodgeBucket :=
  let algorithmic := x.C + x.N
  let balanced := x.A
  let architectural := x.S + x.L
  let max_val := max (max algorithmic balanced) architectural
  if max_val = algorithmic then .algorithmic
  else if max_val = balanced then .balanced
  else .architectural

/-- Argmax over three bucket scores with ties resolved to the first declared
bucket (algorithmic before balanced before architectural) — the selection
rule as the spec words it. -/
def argmaxFirstBucket (a b c : ℚ) : HodgeBucket :=
  if a ≥ b ∧ a ≥ c then .algorithmic
  else if b ≥ c then .balanced
  else .architectural

/-- Modelled from the claim (not from the source): the dominant bucket as the
argmax of the *weighted* bucket scores, each dimension weighted by the default
weight vector 1.0/1.5/2.0/2.5/3.0, ties to the first declared bucket. -/
def specWeightedDominantBucket (x : ComplexityVector) : HodgeBucket :=
  argmaxFirstBucket (x.C * 1 + x.N * (3/2)) (x.A * (5/2)) (x.S * 2 + x.L * 3)

theorem max3_eq_left_iff (a b c : ℚ) : max (max a b) c = a ↔ b ≤ a ∧ c ≤ a := by
  constructor
  · intro h
    constructor
    · calc b ≤ max a b := le_max_right a b
        _ ≤ max (max a b) c := le_max_left _ _
        _ = a := h
    · calc c ≤ max (max a b) c := le_max_right _ _
        _ = a := h
  · rintro ⟨hb, hc⟩
    rw [max_eq_left hb, max_eq_left hc]

theorem max3_eq_mid_iff (a b c : ℚ) : max (max a b) c = b ↔ a ≤ b ∧ c ≤ b := by
  constructor
  · intro h
    constructor
    · calc a ≤ max a b := le_max_left a b
        _ ≤ max (max a b) c := le_max_left _ _
        _ = b := h
    · calc c ≤ max (max a b) c := le_max_right _ _
        _ = b := h
  · rintro ⟨ha, hc⟩
    rw [max_eq_right ha, max_eq_left hc]

/-- Claim C5 (amended): `classify_hodge` is the argmax of the *unweighted*
bucket scores algorithmic = C + N, balanced = A, architectural = S + Λ, with
ties resolved to the first declared bucket; no per-dimension weights enter
the selection. -/
theorem classify_hodge_c5 (x : ComplexityVector) :
    classify_hodge x = argmaxFirstBucket (x.C + x.N) x.A (x.S + x.L) := by
  simp only [classify_hodge, argmaxFirstBucket]
  set a := x.C + x.N with ha
  set b := x.A with hb
  set c := x.S + x.L with hc
  by_cases h1 : b ≤ a ∧ c ≤ a
  · rw [if_pos ((max3_eq_left_iff a b c).mpr h1), if_pos h1]
  · rw [if_neg (fun h => h1 ((max3_eq_left_iff a b c).mp h)), if_neg h1]
    by_cases h2 : c ≤ b
    · have hab : a ≤ b := by
        by_contra hab
        push_neg at hab
        exact h1 ⟨hab.le, h2.trans hab.le⟩
      rw [if_pos ((max3_eq_mid_iff a b c).mpr ⟨hab, h2⟩), if_pos h2]
    · rw [if_neg (fun h => h2 ((max3_eq_mid_iff a b c).mp h).2), if_neg h2]

/-- Counterexample to C5 as stated: on the vector (C=3, N=0, S=2.9, A=0, L=0)
the code's `classify_hodge` picks `algorithmic` (unweighted scores 3 / 0 /
2.9), while the argmax of the weighted scores that the claim describes
(3·1.0 = 3 vs 2.9·2.0 = 5.8) is `architectural`. -/
theorem hodge_c5_counterexample :
    classify_hodge ⟨3, 0, 29/10, 0, 0⟩ = HodgeBucket.algorithmic
    ∧ specWeightedDominantBucket ⟨3, 0, 29/10, 0, 0⟩ = HodgeBucket.architectural
    ∧ classify_hodge ⟨3, 0, 29/10, 0, 0⟩
        ≠ specWeightedDominantBucket ⟨3, 0, 29/10, 0, 0⟩ := by
  refine ⟨?_, ?_, ?_⟩ <;>
    norm_num [classify_hodge, specWeightedDominantBucket, argmaxFirstBucket, max_def]
  decide

end Measurement

namespace Core

/-! ### `core/convergence.py`: oscillation detection and status analysis -/

/-- Enum `ConvergenceStatus` of `core/convergence.py`. -/
inductive ConvergenceStatus where
  | safe
  | review
  | violation
  | oscillating
deriving DecidableEq, Repr

/-- Embedding of `IterationHistory.is_oscillating(self)` on the `scores` list: `False` for
fewer than 4 scores; otherwise form the consecutive differences, count the
sign changes (adjacent differences with negative product) and fire when
`sign_changes >= len(diffs) * 0.6`. -/
def is_oscillating (scores : List ℚ) : Bool :=
  if scores.length < 4 then false
  else
    let diffs := List.zipWith (fun x y => x - y) scores.tail scores
    let sign_changes :=
      (List.zipWith (fun x y => x * y) diffs diffs.tail).countP (fun p => decide (p < 0))
    decide ((diffs.length : ℚ) * (6 / 10) ≤ (sign_changes : ℚ))

/-- Embedding of `convergence_score(current, threshold, epsilon)`; `none` stands for the
`float('inf')` returned when `epsilon == 0` and `current > target`. -/
def convergence_score (current threshold epsilon : ℚ) : Option ℚ :=
  if epsilon = 0 then
    (if threshold - epsilon < current then none else some 0)
  else some ((current - (threshold - epsilon)) / epsilon)

/-- The fields of `ConvergenceResult` in `core/convergence.py` that the
status logic produces (the rounded diagnostic fields `distance_to_target`,
`distance_to_threshold`, `lipschitz_estimate` and the 3-decimal rounding of
`convergence_score` are pure post-processing of these and are omitted). -/
structure AnalysisResult where
  score : ℚ
  threshold : ℚ
  epsilon : ℚ
  convergence_score : Option ℚ
  status : ConvergenceStatus
deriving DecidableEq, Repr

/-- Embedding of `analyze_convergence(score, threshold, epsilon, history, …)`: the history
argument is the optional `IterationHistory.scores` list; a present history
that oscillates forces `OSCILLATING`, otherwise the zone of
`convergence_score` decides (`< 0` safe, `< 1` review, else violation, with
`float('inf')` in the violation zone). -/
def analyze_convergence (score threshold epsilon : ℚ)
    (history : Option (List ℚ)) : AnalysisResult :=
  let conv_score := convergence_score score threshold epsilon
  let status :=
    if (match history with
        | some h => is_oscillating h
        | none => false) then
      ConvergenceStatus.oscillating
    else
      match conv_score with
      | none => ConvergenceStatus.violation
      | some c =>
        if c < 0 then ConvergenceStatus.safe
        else if c < 1 then ConvergenceStatus.review
        else ConvergenceStatus.violation
  { score := score
    threshold := threshold
    epsilon := epsilon
    convergence_score := conv_score
    status := status }

/-- Claim C8: whenever the oscillation test fires on the observed window, the
analysed status is `oscillating`, whatever the score, threshold and ε (the
zone classification is overridden). -/
theorem oscillation_overrides_c8 (score threshold epsilon : ℚ) (h : List ℚ)
    (hosc : is_oscillating h = true) :
    (analyze_convergence score threshold epsilon (some h)).status
      = ConvergenceStatus.oscillating := by
  simp [analyze_convergence, hosc]

/-- Closed witness for C8: the window [0,1,0,1,0] oscillates (all three
adjacent difference products are negative, 3 ≥ 4·0.6), so a score deep in the
violation zone still reports `oscillating`. -/
theorem oscillation_overrides_c8_witness :
    (analyze_convergence 100 10 2 (some [0, 1, 0, 1, 0])).status
      = ConvergenceStatus.oscillating :=
  oscillation_overrides_c8 100 10 2 [0, 1, 0, 1, 0]
    (by norm_num [is_oscillating, List.zipWith, List.countP_cons, List.countP_nil])

end Core

namespace GateAdr

/-! ### `gate/adr/parser.py`: `_parse_timedelta`

Strings are modelled as `List Char`. Python's `str.strip`, `str.lower` and
`int()` are modelled for the ASCII fragment (Unicode whitespace/digits and
the underscore digit separator of `int()` play no role in grace-period
strings and are not modelled). A `timedelta` is represented by its number of
days (every branch of `_parse_timedelta` builds `timedelta(days=…)`); the
`Option` result is `none` when the Python code would raise an uncaught
`ValueError` (a `d`/`m`/`y` value whose numeric part is not an integer). -/

/-- ASCII whitespace for `str.strip` / `int()`. -/
def isPySpace (c : Char) : Bool :=
  c.toNat = 32 || c.toNat = 9 || c.toNat = 10 || c.toNat = 13
    || c.toNat = 11 || c.toNat = 12

/-- ASCII decimal digit. -/
def isPyDigit (c : Char) : Bool :=
  48 ≤ c.toNat && c.toNat ≤ 57

/-- Embedding of `str.lower` on one ASCII character. -/
def pyLowerChar (c : Char) : Char :=
  if 65 ≤ c.toNat ∧ c.toNat ≤ 90 then Char.ofNat (c.toNat + 32) else c

/-- Embedding of `str.strip()`: drop whitespace from both ends. -/
def pyStrip (s : List Char) : List Char :=
  ((s.dropWhile isPySpace).reverse.dropWhile isPySpace).reverse

/-- Embedding of `str.lower()`. -/
def pyLower (s : List Char) : List Char := s.map pyLowerChar

/-- Value of a digit string, most significant first. -/
def digitsVal (ds : List Char) : ℕ :=
  ds.foldl (fun acc c => acc * 10 + (c.toNat - 48)) 0

/-- Embedding of `int(s)` for a decimal string: strip whitespace, optional sign, digits;
`none` models the `ValueError` on anything else. -/
def pyInt (s : List Char) : Option ℤ :=
  match pyStrip s with
  | [] => none
  | c :: ds =>
    if c = '+' then
      (if ds ≠ [] ∧ ds.all isPyDigit then some (digitsVal ds : ℤ) else none)
    else if c = '-' then
      (if ds ≠ [] ∧ ds.all isPyDigit then some (-(digitsVal ds : ℤ)) else none)
    else
      (if (c :: ds).all isPyDigit then some (digitsVal (c :: ds) : ℤ) else none)

/-- Embedding of `_parse_timedelta(value)`, with the result as a number of days. An empty
value yields 180 days; otherwise the value is stripped and lowered; a `d`,
`m` or `y` suffix multiplies the parsed integer by 1, 30 or 365 days (an
unparsable integer propagates the `ValueError`, i.e. `none`); a suffix-less
value is tried as a bare integer number of days, and 180 days is the
fallback when that raises `ValueError`. The suffix dispatch on the
stripped-and-lowered value: -/
def parse_timedelta_body (v : List Char) : Option ℤ :=
  if v.getLast? = some 'd' then pyInt v.dropLast
  else if v.getLast? = some 'm' then (pyInt v.dropLast).map (fun n => n * 30)
  else if v.getLast? = some 'y' then (pyInt v.dropLast).map (fun n => n * 365)
  else
    match pyInt v with
    | some n => some n
    | none => some 180

/-- Embedding of `_parse_timedelta(value)` itself: empty value → 180 days, otherwise
`value = value.strip().lower()` and the suffix dispatch above. -/
def parse_timedelta (value : List Char) : Option ℤ :=
  if value = [] then some 180
  else parse_timedelta_body (pyLower (pyStrip value))

theorem dropWhile_eq_self_of_all {p : Char → Bool} (l : List Char)
    (h : ∀ c ∈ l, p c = false) : l.dropWhile p = l := by
  cases l with
  | nil => rfl
  | cons a t =>
    rw [List.dropWhile_cons, if_neg]
    simp [h a (List.mem_cons_self a t)]

theorem pyStrip_no_space (s : List Char) (h : ∀ c ∈ s, isPySpace c = false) :
    pyStrip s = s := by
  unfold pyStrip
  rw [dropWhile_eq_self_of_all s h,
    dropWhile_eq_self_of_all s.reverse (fun c hc => h c (List.mem_reverse.mp hc)),
    List.reverse_reverse]

theorem isPyDigit_not_space (c : Char) (h : isPyDigit c = true) :
    isPySpace c = false := by
  simp only [isPyDigit, Bool.and_eq_true, decide_eq_true_eq] at h
  simp only [isPySpace, Bool.or_eq_false_iff, decide_eq_false_iff_not]
  omega

theorem pyLowerChar_digit (c : Char) (h : isPyDigit c = true) :
    pyLowerChar c = c := by
  simp only [isPyDigit, Bool.and_eq_true, decide_eq_true_eq] at h
  unfold pyLowerChar
  rw [if_neg]
  omega

theorem pyInt_digits (ds : List Char) (hne : ds ≠ [])
    (hall : ds.all isPyDigit = true) : pyInt ds = some (digitsVal ds : ℤ) := by
  have hstrip : pyStrip ds = ds := by
    refine pyStrip_no_space ds (fun c hc => isPyDigit_not_space c ?_)
    exact List.all_eq_true.mp hall c hc
  match ds, hne with
  | c :: t, _ =>
    have hc : isPyDigit c = true := List.all_eq_true.mp hall c (List.mem_cons_self c t)
    have hcplus : ¬(c = '+') := by
      intro h; subst h; simp [isPyDigit] at hc
    have hcminus : ¬(c = '-') := by
      intro h; subst h; simp [isPyDigit] at hc
    simp [pyInt, hstrip, hcplus, hcminus, hall]

theorem timedelta_norm (ds : List Char) (u : Char) (hall : ds.all isPyDigit = true)
    (hsp : isPySpace u = false) (hlo : pyLowerChar u = u) :
    pyLower (pyStrip (ds ++ [u])) = ds ++ [u] := by
  have hstrip : pyStrip (ds ++ [u]) = ds ++ [u] := by
    refine pyStrip_no_space _ (fun c hc => ?_)
    rcases List.mem_append.mp hc with h | h
    · exact isPyDigit_not_space c (List.all_eq_true.mp hall c h)
    · simp only [List.mem_singleton] at h
      subst h; exact hsp
  rw [hstrip]
  unfold pyLower
  rw [List.map_append]
  have hmap : ds.map pyLowerChar = ds := by
    have h1 : ∀ c ∈ ds, pyLowerChar c = id c := fun c hc =>
      pyLowerChar_digit c (List.all_eq_true.mp hall c hc)
    rw [List.map_congr_left h1, List.map_id]
  rw [hmap]
  simp [hlo]

theorem digits_norm (ds : List Char) (hall : ds.all isPyDigit = true) :
    pyLower (pyStrip ds) = ds := by
  have hstrip : pyStrip ds = ds :=
    pyStrip_no_space ds (fun c hc => isPyDigit_not_space c (List.all_eq_true.mp hall c hc))
  rw [hstrip]
  unfold pyLower
  have h1 : ∀ c ∈ ds, pyLowerChar c = id c := fun c hc =>
    pyLowerChar_digit c (List.all_eq_true.mp hall c hc)
  rw [List.map_congr_left h1, List.map_id]

theorem parse_timedelta_suffix (ds : List Char) (u : Char)
    (hall : ds.all isPyDigit = true) (hsp : isPySpace u = false)
    (hlo : pyLowerChar u = u) :
    parse_timedelta (ds ++ [u])
      = (if u = 'd' then pyInt ds
         else if u = 'm' then (pyInt ds).map (fun n => n * 30)
         else if u = 'y' then (pyInt ds).map (fun n => n * 365)
         else match pyInt (ds ++ [u]) with
              | some n => some n
              | none => some 180) := by
  have hvne : ds ++ [u] ≠ [] := by simp
  unfold parse_timedelta parse_timedelta_body
  rw [if_neg hvne, timedelta_norm ds u hall hsp hlo, List.getLast?_concat,
    List.dropLast_concat]
  by_cases hd : u = 'd'
  · rw [if_pos (by rw [hd]), if_pos hd]
  · rw [if_neg (by simpa using hd), if_neg hd]
    by_cases hm : u = 'm'
    · rw [if_pos (by rw [hm]), if_pos hm]
    · rw [if_neg (by simpa using hm), if_neg hm]
      by_cases hy : u = 'y'
      · rw [if_pos (by rw [hy]), if_pos hy]
      · rw [if_neg (by simpa using hy), if_neg hy]

/-- Claim C9 (amended): grace-period strings of the form `<N>d`, `<N>m` and
`<N>y` parse to N, 30·N and 365·N days; the empty value defaults to 180
days; but a suffix-less value made of bare digits is interpreted as that
many days (not 180) — only a suffix-less value that fails integer parsing
falls back to 180 days. -/
theorem grace_period_c9 (ds : List Char) (hne : ds ≠ [])
    (hall : ds.all isPyDigit = true) :
    parse_timedelta (ds ++ ['d']) = some (digitsVal ds : ℤ)
    ∧ parse_timedelta (ds ++ ['m']) = some ((digitsVal ds : ℤ) * 30)
    ∧ parse_timedelta (ds ++ ['y']) = some ((digitsVal ds : ℤ) * 365)
    ∧ parse_timedelta [] = some 180
    ∧ parse_timedelta ds = some (digitsVal ds : ℤ)
    ∧ (∀ v : List Char, v ≠ [] →
        (pyLower (pyStrip v)).getLast? ≠ some 'd' →
        (pyLower (pyStrip v)).getLast? ≠ some 'm' →
        (pyLower (pyStrip v)).getLast? ≠ some 'y' →
        pyInt (pyLower (pyStrip v)) = none →
        parse_timedelta v = some 180) := by
  have hint := pyInt_digits ds hne hall
  refine ⟨?_, ?_, ?_, rfl, ?_, ?_⟩
  · rw [parse_timedelta_suffix ds 'd' hall (by decide) (by decide), if_pos rfl, hint]
  · rw [parse_timedelta_suffix ds 'm' hall (by decide) (by decide),
      if_neg (by decide), if_pos rfl, hint, Option.map_some']
  · rw [parse_timedelta_suffix ds 'y' hall (by decide) (by decide),
      if_neg (by decide), if_neg (by decide), if_pos rfl, hint, Option.map_some']
  · unfold parse_timedelta parse_timedelta_body
    rw [if_neg hne, digits_norm ds hall]
    obtain ⟨c, hc⟩ : ∃ c, ds.getLast? = some c := by
      cases h : ds.getLast? with
      | none => exact absurd (List.getLast?_eq_none_iff.mp h) hne
      | some c => exact ⟨c, rfl⟩
    have hcd : isPyDigit c = true := by
      obtain ⟨h', hceq⟩ := List.mem_getLast?_eq_getLast (Option.mem_def.mpr hc)
      rw [hceq]
      exact List.all_eq_true.mp hall _ (List.getLast_mem h')
    have hne_d : ds.getLast? ≠ some 'd' := by
      rw [hc]; intro h; injection h with h; subst h; simp [isPyDigit] at hcd
    have hne_m : ds.getLast? ≠ some 'm' := by
      rw [hc]; intro h; injection h with h; subst h; simp [isPyDigit] at hcd
    have hne_y : ds.getLast? ≠ some 'y' := by
      rw [hc]; intro h; injection h with h; subst h; simp [isPyDigit] at hcd
    rw [if_neg hne_d, if_neg hne_m, if_neg hne_y, hint]
  · intro v hvne hd hm hy hnone
    unfold parse_timedelta parse_timedelta_body
    rw [if_neg hvne, if_neg hd, if_neg hm, if_neg hy, hnone]

/-- Counterexample to C9 as stated: the value `"42"` is missing the unit
suffix, yet `_parse_timedelta` returns 42 days, not the claimed 180-day
default. -/
theorem grace_period_c9_counterexample :
    parse_timedelta ['4', '2'] = some 42
    ∧ ¬ parse_timedelta ['4', '2'] = some 180 := by
  have h42 : parse_timedelta ['4', '2'] = some 42 := by
    have hint := pyInt_digits ['4', '2'] (by decide) (by decide)
    unfold parse_timedelta parse_timedelta_body
    rw [if_neg (by decide), digits_norm ['4', '2'] (by decide)]
    rw [if_neg (by decide), if_neg (by decide), if_neg (by decide), hint]
    rfl
  exact ⟨h42, by rw [h42]; decide⟩

/-- Closed witness for C9: `"30d"` parses to 30 days, via `grace_period_c9`. -/
theorem grace_period_c9_witness : parse_timedelta ['3', '0', 'd'] = some 30 := by
  have h := (grace_period_c9 ['3', '0'] (by decide) (by decide)).1
  simpa using h

end GateAdr

namespace Graph

open Measurement

/-! ### `graph/metrics.py`: the per-(entity, snapshot) record -/

/-- Dataclass `Metrics`. -/
structure Metrics where
  entity_id : String
  snapshot_id : String
  x : ComplexityVector
  raw_sum : ℚ
  d : ℚ
  hodge : HodgeBucket
  module_type : String
  confidence : ℚ
deriving DecidableEq, Repr

/-- The `Metrics` dataclass constructor followed by `__post_init__`: an
argument `raw_sum == 0.0` is replaced by `x.raw_sum`; any other value is
stored as given. -/
def Metrics.make (entity_id snapshot_id : String) (x : ComplexityVector)
    (raw_sum d : ℚ) (hodge : HodgeBucket) (module_type : String)
    (confidence : ℚ) : Metrics :=
  { entity_id := entity_id
    snapshot_id := snapshot_id
    x := x
    raw_sum := if raw_sum = 0 then x.raw_sum else raw_sum
    d := d
    hodge := hodge
    module_type := module_type
    confidence := confidence }

/-- Embedding of `create_metrics(...)`: constructs `Metrics` passing `raw_sum=x.raw_sum`. -/
def create_metrics (entity_id snapshot_id : String) (x : ComplexityVector)
    (d : ℚ) (hodge : HodgeBucket) (module_type : String) (confidence : ℚ) :
    Metrics :=
  Metrics.make entity_id snapshot_id x x.raw_sum d hodge module_type confidence

/-! ### `graph/store.py`: the `metrics` table of `SQLiteStore`

The table is modelled as a list of rows; `INSERT OR REPLACE` on the primary
key `(snapshot_id, entity_id)` deletes the conflicting row and stores the new
one, and the point `SELECT` returns the row with the key (unique by the
primary-key invariant that insertion maintains). -/

/-- One row of the `metrics` table (`lambda_` is the `lambda` column). -/
structure MetricsRow where
  snapshot_id : String
  entity_id : String
  module_type : String
  c : ℚ
  n : ℚ
  s : ℚ
  a : ℚ
  lambda_ : ℚ
  raw_sum : ℚ
  canonical_deviation : ℚ
  h_alg : ℤ
  h_bal : ℤ
  h_arch : ℤ
  confidence : ℚ
deriving DecidableEq, Repr

/-- Python `int()` on a float: truncation toward zero. -/
def py_int_trunc (q : ℚ) : ℤ := if 0 ≤ q then ⌊q⌋ else ⌈q⌉

/-- Primary-key equality of a row with `(snapshot_id, entity_id)`. -/
def sameKey (r : MetricsRow) (snapshot_id entity_id : String) : Bool :=
  r.snapshot_id == snapshot_id && r.entity_id == entity_id

/-- Embedding of `insert_metrics(metrics)`: `INSERT OR REPLACE` of the row built from the
record; the `h_alg`/`h_bal`/`h_arch` columns hold the `int()`-truncated
unweighted Hodge scores `C+N`, `A`, `S+Λ`. -/
def insert_metrics (m : Metrics) (table : List MetricsRow) : List MetricsRow :=
  { snapshot_id := m.snapshot_id
    entity_id := m.entity_id
    module_type := m.module_type
    c := m.x.C
    n := m.x.N
    s := m.x.S
    a := m.x.A
    lambda_ := m.x.L
    raw_sum := m.raw_sum
    canonical_deviation := m.d
    h_alg := py_int_trunc (m.x.C + m.x.N)
    h_bal := py_int_trunc m.x.A
    h_arch := py_int_trunc (m.x.S + m.x.L)
    confidence := m.confidence }
    :: table.filter (fun r => ! sameKey r m.snapshot_id m.entity_id)

/-- Embedding of `_row_to_metrics(row)`: rebuilds the vector from the five numeric
columns, re-derives the Hodge bucket as the first key attaining
`max(h_alg, h_bal, h_arch)` (Python `max` over the dict in insertion
order), maps a falsy stored confidence (`0.0`) to `1.0`, and runs the
`Metrics` dataclass constructor (including `__post_init__`). -/
def row_to_metrics (row : MetricsRow) : Metrics :=
  let x : ComplexityVector := ⟨row.c, row.n, row.s, row.a, row.lambda_⟩
  let hodge : HodgeBucket :=
    if row.h_bal ≤ row.h_alg ∧ row.h_arch ≤ row.h_alg then .algorithmic
    else if row.h_arch ≤ row.h_bal then .balanced
    else .architectural
  Metrics.make row.entity_id row.snapshot_id x row.raw_sum
    row.canonical_deviation hodge row.module_type
    (if row.confidence = 0 then 1 else row.confidence)

/-- Embedding of `get_metrics(snapshot_id, entity_id)`: point `SELECT` by primary key. -/
def get_metrics (snapshot_id entity_id : String) (table : List MetricsRow) :
    Option Metrics :=
  (table.find? (fun r => sameKey r snapshot_id entity_id)).map row_to_metrics

/-- Claim C10: writing a `Metrics` record for a `(snapshot, entity)` key —
whatever the table already holds at that key (upsert, never an error) — and
reading the key back yields a record with the same five vector components
and the same canonical deviation `d` as the last write. -/
theorem store_roundtrip_c10 (m : Metrics) (table : List MetricsRow) :
    ∃ m' : Metrics,
      get_metrics m.snapshot_id m.entity_id (insert_metrics m table) = some m'
      ∧ m'.x = m.x ∧ m'.d = m.d := by
  unfold get_metrics insert_metrics
  rw [List.find?_cons_of_pos _ (by simp [sameKey])]
  exact ⟨_, rfl, rfl, rfl⟩

end Graph

namespace Measurement

/-! ### `measurement/evidence.py` and the Python AST

The Python AST fragment relevant to `VectorAnalyzer` is embedded below.
Every constructor carries the `lineno`/`col_offset` of the node where the
analyzer reads them (`module` and `matchCase` have none; the analyzer never
reads a location from those kinds). Comprehension generator clauses are kept
as a count (`generators`), and `with`/`async with` items as their context
expressions; the analyzer inspects neither beyond traversal. `ast.walk`
enumerates nodes breadth-first, while `pyWalk` below enumerates them in
preorder: every measurement only counts matching nodes and keeps their
per-node locations, so the multiset of walked nodes — not their order — is
what all the statements proved here depend on. -/

/-- Embedding of `Location` of `measurement/evidence.py`. -/
structure Location where
  file : String
  line : ℕ
  column : ℕ
  ast_node_type : String
deriving DecidableEq, Repr

/-- Embedding of `RuleHit` of `measurement/evidence.py`. -/
structure RuleHit where
  entity_id : String
  snapshot_id : String
  rule_id : String
  count : ℕ
  locations : List Location
deriving DecidableEq, Repr

/-- The `lineno` and `col_offset` of an AST node. -/
structure Loc where
  line : ℕ
  col : ℕ
deriving DecidableEq, Repr

/-- Embedding of `ast.arguments`: positional-only, positional, keyword-only parameter
names plus optional `*args` / `**kwargs`. -/
structure PyArguments where
  posonlyargs : List String
  args : List String
  kwonlyargs : List String
  vararg : Option String
  kwarg : Option String
deriving DecidableEq, Repr

/-- The embedded Python AST. -/
inductive PyAst where
  | module (body : List PyAst)
  | ifStmt (loc : Loc) (test : PyAst) (body orelse : List PyAst)
  | forStmt (loc : Loc) (target iter : PyAst) (body orelse : List PyAst)
  | whileStmt (loc : Loc) (test : PyAst) (body orelse : List PyAst)
  | tryStmt (loc : Loc) (body handlers orelse finalbody : List PyAst)
  | exceptHandler (loc : Loc) (body : List PyAst)
  | matchStmt (loc : Loc) (subject : PyAst) (cases : List PyAst)
  | matchCase (body : List PyAst)
  | withStmt (loc : Loc) (items : List PyAst) (body : List PyAst)
  | functionDef (loc : Loc) (name : String) (args : PyArguments)
      (body : List PyAst)
  | asyncFunctionDef (loc : Loc) (name : String) (args : PyArguments)
      (body : List PyAst)
  | awaitExpr (loc : Loc) (value : PyAst)
  | asyncFor (loc : Loc) (target iter : PyAst) (body orelse : List PyAst)
  | asyncWith (loc : Loc) (items : List PyAst) (body : List PyAst)
  | globalStmt (loc : Loc) (names : List String)
  | nonlocalStmt (loc : Loc) (names : List String)
  | assign (loc : Loc) (targets : List PyAst) (value : PyAst)
  | importStmt (loc : Loc) (names : List String)
  | importFrom (loc : Loc) (module_ : String) (names : List String)
  | nameExpr (loc : Loc) (id : String)
  | attributeExpr (loc : Loc) (value : PyAst) (attr : String)
  | constantExpr (loc : Loc)
  | listComp (loc : Loc) (elt : PyAst) (generators : ℕ)
  | exprStmt (loc : Loc) (value : PyAst)
  | passStmt (loc : Loc)

mutual

/-- Embedding of `ast.walk(tree)`: the node itself and all its descendants. -/
def pyWalk : PyAst → List PyAst
  | .module body => .module body :: pyWalkList body
  | .ifStmt loc test body orelse =>
      .ifStmt loc test body orelse :: (pyWalk test ++ pyWalkList body ++ pyWalkList orelse)
  | .forStmt loc target iter body orelse =>
      .forStmt loc target iter body orelse
        :: (pyWalk target ++ pyWalk iter ++ pyWalkList body ++ pyWalkList orelse)
  | .whileStmt loc test body orelse =>
      .whileStmt loc test body orelse
        :: (pyWalk test ++ pyWalkList body ++ pyWalkList orelse)
  | .tryStmt loc body handlers orelse finalbody =>
      .tryStmt loc body handlers orelse finalbody
        :: (pyWalkList body ++ pyWalkList handlers ++ pyWalkList orelse
            ++ pyWalkList finalbody)
  | .exceptHandler loc body => .exceptHandler loc body :: pyWalkList body
  | .matchStmt loc subject cases =>
      .matchStmt loc subject cases :: (pyWalk subject ++ pyWalkList cases)
  | .matchCase body => .matchCase body :: pyWalkList body
  | .withStmt loc items body =>
      .withStmt loc items body :: (pyWalkList items ++ pyWalkList body)
  | .functionDef loc name args body =>
      .functionDef loc name args body :: pyWalkList body
  | .asyncFunctionDef loc name args body =>
      .asyncFunctionDef loc name args body :: pyWalkList body
  | .awaitExpr loc value => .awaitExpr loc value :: pyWalk value
  | .asyncFor loc target iter body orelse =>
      .asyncFor loc target iter body orelse
        :: (pyWalk target ++ pyWalk iter ++ pyWalkList body ++ pyWalkList orelse)
  | .asyncWith loc items body =>
      .asyncWith loc items body :: (pyWalkList items ++ pyWalkList body)
  | .globalStmt loc names => [.globalStmt loc names]
  | .nonlocalStmt loc names => [.nonlocalStmt loc names]
  | .assign loc targets value =>
      .assign loc targets value :: (pyWalkList targets ++ pyWalk value)
  | .importStmt loc names => [.importStmt loc names]
  | .importFrom loc module_ names => [.importFrom loc module_ names]
  | .nameExpr loc id => [.nameExpr loc id]
  | .attributeExpr loc value attr => .attributeExpr loc value attr :: pyWalk value
  | .constantExpr loc => [.constantExpr loc]
  | .listComp loc elt generators => .listComp loc elt generators :: pyWalk elt
  | .exprStmt loc value => .exprStmt loc value :: pyWalk value
  | .passStmt loc => [.passStmt loc]

/-- Embedding of `ast.walk` over a list of sibling subtrees. -/
def pyWalkList : List PyAst → List PyAst
  | [] => []
  | t :: ts => pyWalk t ++ pyWalkList ts

end

/-- The `lineno`/`col_offset` of a node (`module` and `matchCase` carry
none; the analyzer never reads a location from those kinds, so the default
is irrelevant). -/
def PyAst.locD : PyAst → Loc
  | .module _ => ⟨0, 0⟩
  | .ifStmt loc .. => loc
  | .forStmt loc .. => loc
  | .whileStmt loc .. => loc
  | .tryStmt loc .. => loc
  | .exceptHandler loc .. => loc
  | .matchStmt loc .. => loc
  | .matchCase _ => ⟨0, 0⟩
  | .withStmt loc .. => loc
  | .functionDef loc .. => loc
  | .asyncFunctionDef loc .. => loc
  | .awaitExpr loc .. => loc
  | .asyncFor loc .. => loc
  | .asyncWith loc .. => loc
  | .globalStmt loc .. => loc
  | .nonlocalStmt loc .. => loc
  | .assign loc .. => loc
  | .importStmt loc .. => loc
  | .importFrom loc .. => loc
  | .nameExpr loc .. => loc
  | .attributeExpr loc .. => loc
  | .constantExpr loc => loc
  | .listComp loc .. => loc
  | .exprStmt loc .. => loc
  | .passStmt loc => loc

/-- Embedding of `type(node).__name__`. -/
def PyAst.typeName : PyAst → String
  | .module _ => "Module"
  | .ifStmt .. => "If"
  | .forStmt .. => "For"
  | .whileStmt .. => "While"
  | .tryStmt .. => "Try"
  | .exceptHandler .. => "ExceptHandler"
  | .matchStmt .. => "Match"
  | .matchCase _ => "match_case"
  | .withStmt .. => "With"
  | .functionDef .. => "FunctionDef"
  | .asyncFunctionDef .. => "AsyncFunctionDef"
  | .awaitExpr .. => "Await"
  | .asyncFor .. => "AsyncFor"
  | .asyncWith .. => "AsyncWith"
  | .globalStmt .. => "Global"
  | .nonlocalStmt .. => "Nonlocal"
  | .assign .. => "Assign"
  | .importStmt .. => "Import"
  | .importFrom .. => "ImportFrom"
  | .nameExpr .. => "Name"
  | .attributeExpr .. => "Attribute"
  | .constantExpr _ => "Constant"
  | .listComp .. => "ListComp"
  | .exprStmt .. => "Expr"
  | .passStmt _ => "Pass"

/-- Embedding of `isinstance(node, (ast.If, ast.For, ast.While, ast.Try, ast.Match,
ast.With))` — the branch test of `_measure_control`. -/
def isBranchNode : PyAst → Bool
  | .ifStmt .. => true
  | .forStmt .. => true
  | .whileStmt .. => true
  | .tryStmt .. => true
  | .matchStmt .. => true
  | .withStmt .. => true
  | _ => false

/-- One step of the `_measure_control` loop over `ast.walk`. -/
def controlStep (fp : String) (acc : ℕ × List Location) (node : PyAst) :
    ℕ × List Location :=
  if isBranchNode node then
    (acc.1 + 1, acc.2 ++ [⟨fp, node.locD.line, node.locD.col, node.typeName⟩])
  else acc

/-- Embedding of `VectorAnalyzer._measure_control`: counts `If/For/While/Try/Match/With`
nodes over the walk and records one `control/branch` hit when any were
found. -/
def measure_control (tree : PyAst) (entity_id snapshot_id file_path : String) :
    ℚ × List RuleHit :=
  let r := (pyWalk tree).foldl (controlStep file_path) (0, [])
  ((r.1 : ℚ),
   if r.2 ≠ [] then
     [⟨entity_id, snapshot_id, "control/branch", r.1, r.2⟩]
   else [])

/-- The mutable `max_depth`/`deepest_location` pair of `_measure_nesting`. -/
structure NestSt where
  maxDepth : ℕ
  deepest : Option Location
deriving DecidableEq, Repr

/-- The body of `walk_depth` on a nesting-increasing node: increment the
depth and record the first node reaching a new maximum. -/
def nestUpdate (fp typeName : String) (loc : Loc) (depth : ℕ) (st : NestSt) :
    ℕ × NestSt :=
  let d := depth + 1
  if st.maxDepth < d then
    (d, ⟨d, some ⟨fp, loc.line, loc.col, typeName⟩⟩)
  else (d, st)

mutual

/-- Embedding of `walk_depth(node, depth)` of `_measure_nesting`: `If/For/While/Try/With/
FunctionDef/AsyncFunctionDef` increase the depth (note: `Match`, `AsyncFor`
and `AsyncWith` do not), and children are visited recursively in field
order. -/
def walkDepth (fp : String) : PyAst → ℕ → NestSt → NestSt
  | .module body, depth, st => walkDepthList fp body depth st
  | .ifStmt loc test body orelse, depth, st =>
      let p := nestUpdate fp "If" loc depth st
      walkDepthList fp orelse p.1
        (walkDepthList fp body p.1 (walkDepth fp test p.1 p.2))
  | .forStmt loc target iter body orelse, depth, st =>
      let p := nestUpdate fp "For" loc depth st
      walkDepthList fp orelse p.1
        (walkDepthList fp body p.1
          (walkDepth fp iter p.1 (walkDepth fp target p.1 p.2)))
  | .whileStmt loc test body orelse, depth, st =>
      let p := nestUpdate fp "While" loc depth st
      walkDepthList fp orelse p.1
        (walkDepthList fp body p.1 (walkDepth fp test p.1 p.2))
  | .tryStmt loc body handlers orelse finalbody, depth, st =>
      let p := nestUpdate fp "Try" loc depth st
      walkDepthList fp finalbody p.1
        (walkDepthList fp orelse p.1
          (walkDepthList fp handlers p.1 (walkDepthList fp body p.1 p.2)))
  | .exceptHandler _ body, depth, st => walkDepthList fp body depth st
  | .matchStmt _ subject cases, depth, st =>
      walkDepthList fp cases depth (walkDepth fp subject depth st)
  | .matchCase body, depth, st => walkDepthList fp body depth st
  | .withStmt loc items body, depth, st =>
      let p := nestUpdate fp "With" loc depth st
      walkDepthList fp body p.1 (walkDepthList fp items p.1 p.2)
  | .functionDef loc _ _ body, depth, st =>
      let p := nestUpdate fp "FunctionDef" loc depth st
      walkDepthList fp body p.1 p.2
  | .asyncFunctionDef loc _ _ body, depth, st =>
      let p := nestUpdate fp "AsyncFunctionDef" loc depth st
      walkDepthList fp body p.1 p.2
  | .awaitExpr _ value, depth, st => walkDepth fp value depth st
  | .asyncFor _ target iter body orelse, depth, st =>
      walkDepthList fp orelse depth
        (walkDepthList fp body depth
          (walkDepth fp iter depth (walkDepth fp target depth st)))
  | .asyncWith _ items body, depth, st =>
      walkDepthList fp body depth (walkDepthList fp items depth st)
  | .globalStmt _ _, _, st => st
  | .nonlocalStmt _ _, _, st => st
  | .assign _ targets value, depth, st =>
      walkDepth fp value depth (walkDepthList fp targets depth st)
  | .importStmt _ _, _, st => st
  | .importFrom _ _ _, _, st => st
  | .nameExpr _ _, _, st => st
  | .attributeExpr _ value _, depth, st => walkDepth fp value depth st
  | .constantExpr _, _, st => st
  | .listComp _ elt _, depth, st => walkDepth fp elt depth st
  | .exprStmt _ value, depth, st => walkDepth fp value depth st
  | .passStmt _, _, st => st

/-- Embedding of `walk_depth` over sibling subtrees in order. -/
def walkDepthList (fp : String) : List PyAst → ℕ → NestSt → NestSt
  | [], _, st => st
  | t :: ts, depth, st => walkDepthList fp ts depth (walkDepth fp t depth st)

end

/-- Embedding of `VectorAnalyzer._measure_nesting`: runs `walk_depth` from the root at
depth 0 and records one `nesting/depth` hit when a deepest location exists. -/
def measure_nesting (tree : PyAst) (entity_id snapshot_id file_path : String) :
    ℚ × List RuleHit :=
  let st := walkDepth file_path tree 0 ⟨0, none⟩
  ((st.maxDepth : ℚ),
   match st.deepest with
   | some loc => [⟨entity_id, snapshot_id, "nesting/depth", st.maxDepth, [loc]⟩]
   | none => [])

/-- The targets of an `Assign` that are `self.<attr>` (an `Attribute` whose
value is the `Name` `self`). -/
def selfAttrCount (targets : List PyAst) : ℕ :=
  targets.countP (fun t =>
    match t with
    | .attributeExpr _ (.nameExpr _ id) _ => id == "self"
    | _ => false)

/-- One step of the `_measure_state` loop over `ast.walk`. -/
def stateStep (fp : String) (acc : ℕ × List Location) (node : PyAst) :
    ℕ × List Location :=
  match node with
  | .globalStmt loc names =>
      (acc.1 + names.length, acc.2 ++ [⟨fp, loc.line, loc.col, "Global"⟩])
  | .nonlocalStmt loc names =>
      (acc.1 + names.length, acc.2 ++ [⟨fp, loc.line, loc.col, "Nonlocal"⟩])
  | .assign loc targets _ =>
      (acc.1 + selfAttrCount targets,
       acc.2 ++ List.replicate (selfAttrCount targets)
          ⟨fp, loc.line, loc.col, "SelfAttributeAssign"⟩)
  | _ => acc

/-- Embedding of `VectorAnalyzer._measure_state`: `global`/`nonlocal` names and
`self.<attr> = …` assignment targets, with one `state/mutation` hit when any
were found. -/
def measure_state (tree : PyAst) (entity_id snapshot_id file_path : String) :
    ℚ × List RuleHit :=
  let r := (pyWalk tree).foldl (stateStep file_path) (0, [])
  ((r.1 : ℚ),
   if r.2 ≠ [] then
     [⟨entity_id, snapshot_id, "state/mutation", r.1, r.2⟩]
   else [])

/-- The async node kinds counted by `_measure_async`, with their recorded
node-type names. -/
def asyncNode? : PyAst → Option (Loc × String)
  | .asyncFunctionDef loc _ _ _ => some (loc, "AsyncFunctionDef")
  | .awaitExpr loc _ => some (loc, "Await")
  | .asyncFor loc _ _ _ _ => some (loc, "AsyncFor")
  | .asyncWith loc _ _ => some (loc, "AsyncWith")
  | _ => none

/-- One step of the `_measure_async` loop over `ast.walk`. -/
def asyncStep (fp : String) (acc : ℕ × List Location) (node : PyAst) :
    ℕ × List Location :=
  match asyncNode? node with
  | some (loc, tn) => (acc.1 + 1, acc.2 ++ [⟨fp, loc.line, loc.col, tn⟩])
  | none => acc

/-- Embedding of `VectorAnalyzer._measure_async`: `async def` / `await` / `async for` /
`async with` occurrences, with one `async/complexity` hit when any were
found. -/
def measure_async (tree : PyAst) (entity_id snapshot_id file_path : String) :
    ℚ × List RuleHit :=
  let r := (pyWalk tree).foldl (asyncStep file_path) (0, [])
  ((r.1 : ℚ),
   if r.2 ≠ [] then
     [⟨entity_id, snapshot_id, "async/complexity", r.1, r.2⟩]
   else [])

/-- The parameter count of a function: positional-only + positional +
keyword-only parameters plus `*args` and `**kwargs`, minus one when the
first positional parameter is `self` or `cls`. -/
def totalParams (args : PyArguments) : ℕ :=
  let base := args.posonlyargs.length + args.args.length + args.kwonlyargs.length
    + (if args.vararg.isSome then 1 else 0) + (if args.kwarg.isSome then 1 else 0)
  match args.args with
  | a :: _ => if a == "self" || a == "cls" then base - 1 else base
  | [] => base

/-- The mutable `import_count`/`param_violations`/`locations` triple of
`_measure_coupling`. -/
structure CouplingAcc where
  imports : ℕ
  violations : ℕ
  locations : List Location
deriving DecidableEq, Repr

/-- One step of the `_measure_coupling` loop over `ast.walk`. -/
def couplingStep (fp : String) (acc : CouplingAcc) (node : PyAst) : CouplingAcc :=
  match node with
  | .importStmt loc _ =>
      ⟨acc.imports + 1, acc.violations,
       acc.locations ++ [⟨fp, loc.line, loc.col, "Import"⟩]⟩
  | .importFrom loc _ _ =>
      ⟨acc.imports + 1, acc.violations,
       acc.locations ++ [⟨fp, loc.line, loc.col, "Import"⟩]⟩
  | .functionDef loc _ args _ =>
      if 5 < totalParams args then
        ⟨acc.imports, acc.violations + 1,
         acc.locations ++ [⟨fp, loc.line, loc.col, "ExcessiveParams"⟩]⟩
      else acc
  | .asyncFunctionDef loc _ args _ =>
      if 5 < totalParams args then
        ⟨acc.imports, acc.violations + 1,
         acc.locations ++ [⟨fp, loc.line, loc.col, "ExcessiveParams"⟩]⟩
      else acc
  | _ => acc

/-- Embedding of `VectorAnalyzer._measure_coupling`:
`coupling = import_count * 0.5 + param_violations * 2.0`, with one
`coupling/dependency` hit when any location was recorded. -/
def measure_coupling (tree : PyAst) (entity_id snapshot_id file_path : String) :
    ℚ × List RuleHit :=
  let r := (pyWalk tree).foldl (couplingStep file_path) ⟨0, 0, []⟩
  ((r.imports : ℚ) * (1/2) + (r.violations : ℚ) * 2,
   if r.locations ≠ [] then
     [⟨entity_id, snapshot_id, "coupling/dependency",
       r.imports + r.violations, r.locations⟩]
   else [])

/-- Dataclass `VectorMeasurement`. -/
structure VectorMeasurement where
  vector : ComplexityVector
  rule_hits : List RuleHit
deriving DecidableEq, Repr

/-- Embedding of `VectorAnalyzer.measure(source, entity_id, snapshot_id, file_path)`,
taking the outcome of `ast.parse(source)` as input: `none` is the
`SyntaxError` path and returns the zero vector with no rule hits; a parsed
tree is measured by the five `_measure_*` passes, whose hits accumulate in
call order. -/
def measure (parsed : Option PyAst)
    (entity_id snapshot_id file_path : String) : VectorMeasurement :=
  match parsed with
  | none => { vector := ComplexityVector.zero, rule_hits := [] }
  | some tree =>
    let c := measure_control tree entity_id snapshot_id file_path
    let n := measure_nesting tree entity_id snapshot_id file_path
    let s := measure_state tree entity_id snapshot_id file_path
    let a := measure_async tree entity_id snapshot_id file_path
    let l := measure_coupling tree entity_id snapshot_id file_path
    { vector := ⟨c.1, n.1, s.1, a.1, l.1⟩
      rule_hits := c.2 ++ n.2 ++ s.2 ++ a.2 ++ l.2 }

/-! ### Claims C4, C6, C7 -/

/-- Modelled from the claim (not from the source): one increment per
branching, looping or exception-handling construct with every pattern-match
case counted individually, plus one increment per comprehension/generator
clause. -/
def specControlIncrement : PyAst → ℕ
  | .ifStmt .. => 1
  | .forStmt .. => 1
  | .whileStmt .. => 1
  | .asyncFor .. => 1
  | .exceptHandler .. => 1
  | .matchCase _ => 1
  | .listComp _ _ generators => generators
  | _ => 0

/-- The Control count the claim describes, summed over the walked tree. -/
def specControlCount (t : PyAst) : ℕ :=
  ((pyWalk t).map specControlIncrement).sum

theorem controlStep_foldl (fp : String) (l : List PyAst)
    (acc : ℕ × List Location) :
    (l.foldl (controlStep fp) acc).1 = acc.1 + l.countP isBranchNode := by
  induction l generalizing acc with
  | nil => simp
  | cons a l ih =>
    rw [List.foldl_cons, ih, List.countP_cons]
    unfold controlStep
    by_cases h : isBranchNode a
    · simp only [h, if_pos]
      omega
    · simp [h]

/-- Claim C4 (amended): the Control component counts one increment per
`If`, `For`, `While`, `Try`, `Match` and `With` statement node of the walked
tree — a `match` statement counts once regardless of how many cases it has,
and comprehension/generator clauses contribute nothing. -/
theorem control_c4 (t : PyAst) (eid sid fp : String) :
    (measure (some t) eid sid fp).vector.C
      = ((pyWalk t).countP isBranchNode : ℚ) := by
  have h : (measure (some t) eid sid fp).vector.C
      = (((pyWalk t).foldl (controlStep fp) (0, ([] : List Location))).1 : ℚ) := rfl
  rw [h, controlStep_foldl]
  simp

/-- Counterexample to C4 as stated: the one-line module `[x for x in y]`
(an expression statement holding a list comprehension with one generator
clause) measures Control = 0, while the claim's counting rule demands one
increment for the comprehension clause. -/
theorem control_c4_counterexample :
    ¬ ((measure
          (some (.module [.exprStmt ⟨1, 0⟩
            (.listComp ⟨1, 0⟩ (.nameExpr ⟨1, 1⟩ "x") 1)]))
          "e" "s" "f").vector.C
        = (specControlCount
            (.module [.exprStmt ⟨1, 0⟩
              (.listComp ⟨1, 0⟩ (.nameExpr ⟨1, 1⟩ "x") 1)]) : ℚ)) := by
  intro h
  have h1 : (measure
      (some (.module [.exprStmt ⟨1, 0⟩
        (.listComp ⟨1, 0⟩ (.nameExpr ⟨1, 1⟩ "x") 1)]))
      "e" "s" "f").vector.C = ((0 : ℕ) : ℚ) := rfl
  have h2 : specControlCount
      (.module [.exprStmt ⟨1, 0⟩
        (.listComp ⟨1, 0⟩ (.nameExpr ⟨1, 1⟩ "x") 1)]) = 1 := rfl
  rw [h1, h2] at h
  norm_num at h

/-- Claim C6: when the parse of the source fails, `measure` returns the zero
vector together with an empty `RuleHit` list (and, being a total function of
the parse outcome, raises nothing). -/
theorem parse_failure_c6 (eid sid fp : String) :
    measure none eid sid fp = ⟨ComplexityVector.zero, []⟩ := rfl

theorem measure_control_val (t : PyAst) (eid sid fp : String) :
    (measure_control t eid sid fp).1
      = (((pyWalk t).foldl (controlStep fp) (0, ([] : List Location))).1 : ℚ) := rfl

theorem measure_nesting_val (t : PyAst) (eid sid fp : String) :
    (measure_nesting t eid sid fp).1
      = ((walkDepth fp t 0 ⟨0, none⟩).maxDepth : ℚ) := rfl

theorem measure_state_val (t : PyAst) (eid sid fp : String) :
    (measure_state t eid sid fp).1
      = (((pyWalk t).foldl (stateStep fp) (0, ([] : List Location))).1 : ℚ) := rfl

theorem measure_async_val (t : PyAst) (eid sid fp : String) :
    (measure_async t eid sid fp).1
      = (((pyWalk t).foldl (asyncStep fp) (0, ([] : List Location))).1 : ℚ) := rfl

theorem measure_coupling_val (t : PyAst) (eid sid fp : String) :
    (measure_coupling t eid sid fp).1
      = ((((pyWalk t).foldl (couplingStep fp) ⟨0, 0, []⟩).imports : ℚ)) * (1/2)
        + ((((pyWalk t).foldl (couplingStep fp) ⟨0, 0, []⟩).violations : ℚ)) * 2 := rfl

theorem measure_some_vector (t : PyAst) (eid sid fp : String) :
    (measure (some t) eid sid fp).vector
      = ⟨(measure_control t eid sid fp).1, (measure_nesting t eid sid fp).1,
         (measure_state t eid sid fp).1, (measure_async t eid sid fp).1,
         (measure_coupling t eid sid fp).1⟩ := rfl

/-- Claim C7 (amended): every vector measurement has all five components
non-negative; a `Metrics` record constructed with the default `raw_sum`
argument 0 — and any record built by `create_metrics` — carries
`raw_sum = C + N + S + A + L` of its vector; an explicitly supplied non-zero
`raw_sum` is stored as given, without a consistency check. -/
theorem invariants_c7 :
    (∀ (parsed : Option PyAst) (eid sid fp : String),
        0 ≤ (measure parsed eid sid fp).vector.C
        ∧ 0 ≤ (measure parsed eid sid fp).vector.N
        ∧ 0 ≤ (measure parsed eid sid fp).vector.S
        ∧ 0 ≤ (measure parsed eid sid fp).vector.A
        ∧ 0 ≤ (measure parsed eid sid fp).vector.L)
    ∧ (∀ (eid sid : String) (x : ComplexityVector) (d : ℚ)
        (hodge : HodgeBucket) (mt : String) (conf : ℚ),
        (Graph.Metrics.make eid sid x 0 d hodge mt conf).raw_sum = x.raw_sum
        ∧ (Graph.create_metrics eid sid x d hodge mt conf).raw_sum
            = x.raw_sum) := by
  constructor
  · intro parsed eid sid fp
    match parsed with
    | none =>
      refine ⟨?_, ?_, ?_, ?_, ?_⟩ <;> simp [measure, ComplexityVector.zero]
    | some t =>
      rw [measure_some_vector]
      refine ⟨?_, ?_, ?_, ?_, ?_⟩
      · rw [measure_control_val]
        exact Nat.cast_nonneg _
      · rw [measure_nesting_val]
        exact Nat.cast_nonneg _
      · rw [measure_state_val]
        exact Nat.cast_nonneg _
      · rw [measure_async_val]
        exact Nat.cast_nonneg _
      · rw [measure_coupling_val]
        positivity
  · intro eid sid x d hodge mt conf
    constructor
    · simp [Graph.Metrics.make]
    · simp [Graph.create_metrics, Graph.Metrics.make]

/-- Counterexample to C7 as stated: the `Metrics` dataclass accepts an
explicit `raw_sum` of 2 for the vector (1,1,1,1,1), and `__post_init__`
keeps it even though the component sum is 5. -/
theorem invariants_c7_counterexample :
    ¬ ((Graph.Metrics.make "e" "s" ⟨1, 1, 1, 1, 1⟩ 2 0
          HodgeBucket.algorithmic "app" 1).raw_sum
        = (Graph.Metrics.make "e" "s" ⟨1, 1, 1, 1, 1⟩ 2 0
            HodgeBucket.algorithmic "app" 1).x.raw_sum) := by
  intro h
  have h1 : (Graph.Metrics.make "e" "s" (⟨1, 1, 1, 1, 1⟩ : ComplexityVector) 2 0
      HodgeBucket.algorithmic "app" 1).raw_sum = 2 := by
    norm_num [Graph.Metrics.make]
  have h2 : (Graph.Metrics.make "e" "s" (⟨1, 1, 1, 1, 1⟩ : ComplexityVector) 2 0
      HodgeBucket.algorithmic "app" 1).x.raw_sum = 5 := by
    norm_num [Graph.Metrics.make, ComplexityVector.raw_sum]
  rw [h1, h2] at h
  norm_num at h

end Measurement

end SemanticComplexity
